import Mathlib

/- A shallow embedding of pycine.py (class Cine), a decoder for Vision
   Research .cine files.  A byte stream is a `List Nat` (one entry per byte,
   each in 0..255).  Reads are exact-length, mirroring the fact that every
   `struct.unpack` in the source requires a buffer of exactly the computed
   size (a short `file.read` makes the following `unpack` raise
   `struct.error`).  Python exceptions are modelled by `CineErr`. -/

inductive CineErr where
  | structError : CineErr
  | assertError : String → CineErr
  | typeError : CineErr
  | valueError : CineErr
  | indexError : CineErr
  | outOfFuel : CineErr
deriving DecidableEq

instance {ε α : Type} [DecidableEq ε] [DecidableEq α] : DecidableEq (Except ε α) := fun a b =>
  match a, b with
  | .error x, .error y =>
    if h : x = y then .isTrue (by rw [h]) else .isFalse (by intro hc; cases hc; exact h rfl)
  | .error _, .ok _ => .isFalse (by intro hc; cases hc)
  | .ok _, .error _ => .isFalse (by intro hc; cases hc)
  | .ok x, .ok y =>
    if h : x = y then .isTrue (by rw [h]) else .isFalse (by intro hc; cases hc; exact h rfl)

/-- `file.read n` followed by an exact-length `struct.unpack`: returns the
first `n` bytes and the remaining stream, or `none` when fewer than `n`
bytes are available (a short read makes `struct.unpack` fail). -/
def readN (bs : List Nat) (n : Nat) : Option (List Nat × List Nat) :=
  if n ≤ bs.length then some (bs.take n, bs.drop n) else none

/-- Value of a little-endian byte list (struct format characters B, H, I, Q
are all unsigned little-endian on the `<` formats used by the source). -/
def uintLE : List Nat → Nat
  | [] => 0
  | b :: rest => b + 256 * uintLE rest

/-- Two's-complement reading of a `w`-byte little-endian value, for the
signed struct format character l. -/
def toSigned (w v : Nat) : Int :=
  if v < 2 ^ (8 * w - 1) then (v : Int) else (v : Int) - 2 ^ (8 * w)

/-- Little-endian serialization of a 2-byte value (struct format H). -/
def le16 (n : Nat) : List Nat := [n % 256, n / 256 % 256]

/-- Little-endian serialization of a 4-byte value (struct format I). -/
def le32 (n : Nat) : List Nat :=
  [n % 256, n / 256 % 256, n / 65536 % 256, n / 16777216 % 256]

/-- Python list slicing `l[a:b]` for nonnegative bounds: elements with
indices `a .. b-1`, clamped to the list. -/
def pySlice (l : List α) (a b : Nat) : List α := (l.drop a).take (b - a)

/-- Python `str.rstrip` with a NUL argument: drop trailing zero bytes. -/
def rstripNull (l : List Nat) : List Nat := (l.reverse.dropWhile (· = 0)).reverse

/-- Python dictionary assignment `d[k] = v` on an association-list model of a
dict: replace the value when the key is present, append otherwise. -/
def dictSet : List (String × α) → String → α → List (String × α)
  | [], k, v => [(k, v)]
  | (k', v') :: rest, k, v =>
    if k' = k then (k, v) :: rest else (k', v') :: dictSet rest k v

/-- Python dictionary lookup `d[k]` on the association-list model. -/
def dictGet : List (String × α) → String → Option α
  | [], _ => none
  | (k', v') :: rest, k => if k' = k then some v' else dictGet rest k

/- ----------------------------------------------------------------------
   _get_CineFileHeader: struct.unpack of the first 44 bytes with format
   "<2s 3H l I l 6I".  Field offsets follow that layout exactly.
   The source stores the fields in a dict with fixed keys; here the dict is
   a structure with one field per key (the struct key "Type" is spelled
   FileType because Type is reserved in Lean). -/

structure CineFileHeader where
  FileType : List Nat
  Headersize : Nat
  Compression : Nat
  Version : Nat
  FirstMovieImage : Int
  TotalImageCount : Nat
  FirstImageNo : Int
  ImageCount : Nat
  OffImageHeader : Nat
  OffSetup : Nat
  OffImageOffsets : Nat
  TriggerTime : Nat × Nat
deriving DecidableEq

/-- Unsigned little-endian field of width `w` at byte offset `off`. -/
def fld (s : List Nat) (off w : Nat) : Nat := uintLE ((s.drop off).take w)

def CineGetCineFileHeader (s : List Nat) : Except CineErr CineFileHeader :=
  if s.length = 44 then
    .ok
      { FileType := s.take 2
        Headersize := fld s 2 2
        Compression := fld s 4 2
        Version := fld s 6 2
        FirstMovieImage := toSigned 4 (fld s 8 4)
        TotalImageCount := fld s 12 4
        FirstImageNo := toSigned 4 (fld s 16 4)
        ImageCount := fld s 20 4
        OffImageHeader := fld s 24 4
        OffSetup := fld s 28 4
        OffImageOffsets := fld s 32 4
        TriggerTime := (fld s 36 4, fld s 40 4) }
  else .error .structError

/- ----------------------------------------------------------------------
   _get_BitmapInfoHeader: struct.unpack of the next 40 bytes with format
   "<I 2l 2H 2I 2l 2I". -/

structure BitmapInfoHeader where
  biSize : Nat
  biWidth : Int
  biHeight : Int
  biPlanes : Nat
  biBitCount : Nat
  biCompression : Nat
  biSizeImage : Nat
  biXPelsPerMeter : Int
  biYPelsPerMeter : Int
  biClrUsed : Nat
  biClrImportant : Nat
deriving DecidableEq

def CineGetBitmapInfoHeader (s : List Nat) : Except CineErr BitmapInfoHeader :=
  if s.length = 40 then
    .ok
      { biSize := fld s 0 4
        biWidth := toSigned 4 (fld s 4 4)
        biHeight := toSigned 4 (fld s 8 4)
        biPlanes := fld s 12 2
        biBitCount := fld s 14 2
        biCompression := fld s 16 4
        biSizeImage := fld s 20 4
        biXPelsPerMeter := toSigned 4 (fld s 24 4)
        biYPelsPerMeter := toSigned 4 (fld s 28 4)
        biClrUsed := fld s 32 4
        biClrImportant := fld s 36 4 }
  else .error .structError

/- ----------------------------------------------------------------------
   _get_Setup: struct.unpack with the hardcoded format string
     "<" + "2H H I l B I ???? ???? I I 2I I I ???? 3I l I 3l 3I 4I 8f l 2f I"
         + "2I 30l 3I 4? 2I 16l 32I l 64f"
         + "7I 8I 4I 4I 4096s".
   setupWidths lists, per tuple value, the byte width of that value in the
   format above (? is one byte, the 4096s string is a single value).  The
   retained fields and their tuple indices follow the source assignments.
   All retained numeric fields have unsigned formats (H or I), so their
   values are plain little-endian naturals. -/

def setupWidths : List Nat :=
  ([2, 2] ++ [2] ++ [4] ++ [4] ++ [1] ++ [4] ++ List.replicate 4 1 ++ List.replicate 4 1
      ++ [4] ++ [4] ++ [4, 4] ++ [4] ++ [4] ++ List.replicate 4 1 ++ [4, 4, 4] ++ [4] ++ [4]
      ++ [4, 4, 4] ++ [4, 4, 4] ++ [4, 4, 4, 4] ++ List.replicate 8 4 ++ [4] ++ [4, 4] ++ [4])
    ++ ([4, 4] ++ List.replicate 30 4 ++ [4, 4, 4] ++ List.replicate 4 1 ++ [4, 4]
      ++ List.replicate 16 4 ++ List.replicate 32 4 ++ [4] ++ List.replicate 64 4)
    ++ (List.replicate 7 4 ++ List.replicate 8 4 ++ List.replicate 4 4
      ++ List.replicate 4 4 ++ [4096])

/-- Byte offset of tuple value `i` inside the setup chunk. -/
def setupOffset (i : Nat) : Nat := (setupWidths.take i).sum

/-- Tuple value `i` of the setup unpack (unsigned fields only are used). -/
def setupField (c : List Nat) (i : Nat) : Nat :=
  fld c (setupOffset i) (setupWidths.getD i 0)

/-- The local variable desc_string of _get_Setup: tuple value 229 (the
4096-byte Description) with trailing NUL bytes stripped.  The source
computes this value and then returns without storing it anywhere. -/
def CineSetupDesc (c : List Nat) : List Nat :=
  rstripNull ((c.drop (setupOffset 229)).take 4096)

/-- _get_Setup.  struct.unpack requires the chunk length to equal the
calcsize of the fixed format (the sum of setupWidths); otherwise it raises
struct.error.  The returned dict holds exactly the fields assigned in the
source, in assignment order; desc_string is computed but never stored. -/
def CineGetSetup (c : List Nat) : Except CineErr (List (String × Nat)) :=
  if c.length = setupWidths.sum then
    .ok
      [(("ImWidth"), setupField c 0),
       (("ImHeight"), setupField c 1),
       (("Serial"), setupField c 3),
       (("FrameRate"), setupField c 16),
       (("PostTrigger"), setupField c 19),
       (("CameraVersion"), setupField c 25),
       (("FirmwareVersion"), setupField c 26),
       (("SoftwareVersion"), setupField c 27),
       (("RealBPP"), setupField c 51),
       (("CICalib"), setupField c 206),
       (("CalibWidth"), setupField c 207),
       (("CalibHeight"), setupField c 208),
       (("CalibRate"), setupField c 209),
       (("CalibExp"), setupField c 210),
       (("CalibEDR"), setupField c 211),
       (("CalibTemp"), setupField c 212),
       (("Sensor"), setupField c 221),
       (("ShutterNs"), setupField c 222),
       (("EDRShutterNs"), setupField c 223),
       (("FrameDelayNs"), setupField c 224)]
  else .error .structError

/- ----------------------------------------------------------------------
   _get_TaggedBlocks.  The while loop scans from tag_start while
   tagged_length + tag_start <= OffImageOffsets - 1 (over Python integers;
   for naturals this is tagged_length + tag_start < OffImageOffsets).
   Each iteration unpacks an 8-byte block header "< I H H", asserts the
   type code is one of 1002..1006 (the keys of tag_type_dict), then runs
   the 1002 and 1003 branches, and finally adds BlockSize to the
   accumulator.  The byte cursor is advanced only by the reads actually
   performed.  The recursion is driven by a fuel counter; the caller
   supplies length-of-remaining-stream + 1, which can never run out since
   every iteration consumes at least the 8 header bytes. -/

inductive TagVal where
  | pairs : List (Nat × Nat) → TagVal
  | ints : List Nat → TagVal
  | floats : List ℚ → TagVal
deriving DecidableEq

def TagDict := List (String × TagVal)
deriving DecidableEq

/-- Relative time of a (fraction, seconds) entry against the trigger
(fraction, seconds) pair:
  float128(seconds - trigger.seconds) + float128(fraction - trigger.fraction) / 2^32.
All quantities are below 2^32, so the 64-bit float128 mantissa makes every
step of this computation exact; the rational value below is therefore the
exact value the source computes. -/
def timeFloatVal (trig : Nat × Nat) (fraction seconds : Nat) : ℚ :=
  (((seconds : ℚ) - (trig.2 : ℚ))) + (((fraction : ℚ) - (trig.1 : ℚ))) / 2 ^ 32

/-- The TimeOnly entry loop: ntimes iterations, each reading a 4-byte
Fraction then a 4-byte Seconds field. -/
def readTimeEntries : Nat → List Nat → Option (List (Nat × Nat) × List Nat)
  | 0, bs => some ([], bs)
  | k + 1, bs =>
    match readN bs 4 with
    | none => none
    | some (fb, bs1) =>
      match readN bs1 4 with
      | none => none
      | some (sb, bs2) =>
        match readTimeEntries k bs2 with
        | none => none
        | some (rest, bs3) => some ((uintLE fb, uintLE sb) :: rest, bs3)

/-- The ExposureOnly entry loop: nexp iterations, each reading a 4-byte
fraction. -/
def readExpEntries : Nat → List Nat → Option (List Nat × List Nat)
  | 0, bs => some ([], bs)
  | k + 1, bs =>
    match readN bs 4 with
    | none => none
    | some (fb, bs1) =>
      match readExpEntries k bs1 with
      | none => none
      | some (rest, bs2) => some (uintLE fb :: rest, bs2)

/-- One loop iteration after the header has been read and the type-code
assert has passed: the `if BlockType == 1002` branch followed by the
`if BlockType == 1003` branch.  For type codes 1004, 1005, 1006 neither
branch fires: no payload bytes are consumed and the dict is unchanged.
Inside a firing branch: numpy.ndarray(ntimes) raises ValueError when
BlockSize - 8 is negative; after the entries are read, slicing with
framelims[0] raises TypeError when framelims is None. -/
def tagStep (trig : Nat × Nat) (fl : Option (Nat × Nat)) (BlockSize BlockType : Nat)
    (rem : List Nat) (d : TagDict) : Except CineErr (List Nat × TagDict) :=
  let step1 : Except CineErr (List Nat × TagDict) :=
    if BlockType = 1002 then
      if BlockSize < 8 then .error .valueError
      else
        match readTimeEntries ((BlockSize - 8) / 8) rem with
        | none => .error .structError
        | some (entries, rem') =>
          match fl with
          | none => .error .typeError
          | some (a, b) =>
            .ok (rem',
              dictSet
                (dictSet d ("TimeOnly")
                  (.pairs (List.zip (pySlice (entries.map Prod.fst) a b)
                    (pySlice (entries.map Prod.snd) a b))))
                ("time_float")
                (.floats (pySlice (entries.map fun p => timeFloatVal trig p.1 p.2) a b)))
    else .ok (rem, d)
  match step1 with
  | .error e => .error e
  | .ok (rem2, d2) =>
    if BlockType = 1003 then
      if BlockSize < 8 then .error .valueError
      else
        match readExpEntries ((BlockSize - 8) / 4) rem2 with
        | none => .error .structError
        | some (entries, rem') =>
          match fl with
          | none => .error .typeError
          | some (a, b) =>
            .ok (rem',
              dictSet
                (dictSet d2 ("ExposureOnly") (.ints (pySlice entries a b)))
                ("exposure_float")
                (.floats (pySlice (entries.map fun f => (f : ℚ) / 2 ^ 32) a b)))
    else .ok (rem2, d2)

def tagLoop (off tag_start : Nat) (trig : Nat × Nat) (fl : Option (Nat × Nat)) :
    Nat → Nat → List Nat → TagDict → Except CineErr (TagDict × Nat)
  | 0, _, _, _ => .error .outOfFuel
  | fuel + 1, tagged_length, rem, d =>
    if tagged_length + tag_start < off then
      match readN rem 8 with
      | none => .error .structError
      | some (hdr, rem1) =>
        let BlockSize := uintLE (hdr.take 4)
        let BlockType := uintLE ((hdr.drop 4).take 2)
        if BlockType = 1002 ∨ BlockType = 1003 ∨ BlockType = 1004 ∨
            BlockType = 1005 ∨ BlockType = 1006 then
          match tagStep trig fl BlockSize BlockType rem1 d with
          | .error e => .error e
          | .ok (rem2, d2) =>
            tagLoop off tag_start trig fl fuel (tagged_length + BlockSize) rem2 d2
        else .error (.assertError ("Unknown tagged block type: " ++ toString BlockType))
    else .ok (d, tagged_length)

/-- _get_TaggedBlocks, also exposing the final value of the tagged_length
accumulator (the loop variable of the source). -/
def CineGetTaggedBlocksLen (bs : List Nat) (tag_start off : Nat) (trig : Nat × Nat)
    (fl : Option (Nat × Nat)) : Except CineErr (TagDict × Nat) :=
  tagLoop off tag_start trig fl ((bs.drop tag_start).length + 1) 0 (bs.drop tag_start) []

/-- _get_TaggedBlocks as the source exposes it: the blocks dict. -/
def CineGetTaggedBlocks (bs : List Nat) (tag_start off : Nat) (trig : Nat × Nat)
    (fl : Option (Nat × Nat)) : Except CineErr TagDict :=
  Except.map Prod.fst (CineGetTaggedBlocksLen bs tag_start off trig fl)

/- ----------------------------------------------------------------------
   _get_Images.  Pixel samples are widened to float for the returned numpy
   array; both uint8 and uint16 samples are exactly representable as
   float64, so frames are modelled by their sample values. -/

def Frame := List (List Nat)
deriving DecidableEq

/-- struct.unpack "<kH" of an even-length byte string: little-endian
16-bit samples. -/
def toU16 : List Nat → List Nat
  | a :: b :: rest => (a + 256 * b) :: toU16 rest
  | _ => []

/-- numpy.reshape(flat, (nx, ny)) in row-major order: nx rows of ny. -/
def reshapeRows : Nat → Nat → List Nat → List (List Nat)
  | 0, _, _ => []
  | n + 1, ny, l => l.take ny :: reshapeRows n ny (l.drop ny)

/-- One iteration of the frame loop: read the 4-byte AnnotationSize, read
AnnotationSize - 4 further bytes whose last 4 bytes are ImageSize, read
ImageSize payload bytes, unpack them as 8-bit samples when biBitCount is 8
and as ImageSize/2 16-bit samples otherwise (an odd ImageSize then makes
the exact-length unpack fail), and reshape to (nx, ny). -/
def decodeFrame (nx ny bitCount : Nat) (rem : List Nat) : Option (Frame × List Nat) :=
  match readN rem 4 with
  | none => none
  | some (ab, rem1) =>
    let annSize := uintLE ab
    if annSize < 8 then none
    else
      match readN rem1 (annSize - 4) with
      | none => none
      | some (annChunk, rem2) =>
        let imgSize := uintLE (annChunk.drop (annSize - 8))
        match readN rem2 imgSize with
        | none => none
        | some (pix, rem3) =>
          match (if bitCount = 8 then some pix
                 else if imgSize % 2 = 0 then some (toU16 pix) else none) with
          | none => none
          | some samples =>
            if samples.length = nx * ny then some (reshapeRows nx ny samples, rem3)
            else none

/-- The frame loop of _get_Images: n sequential frames. -/
def decodeFrames (nx ny bitCount : Nat) : Nat → List Nat → Option (List Frame × List Nat)
  | 0, rem => some ([], rem)
  | k + 1, rem =>
    match decodeFrame nx ny bitCount rem with
    | none => none
    | some (f, rem') =>
      match decodeFrames nx ny bitCount k rem' with
      | none => none
      | some (fs, rem'') => some (f :: fs, rem'')

/-- struct.unpack of the pointer table: nframes 8-byte unsigned offsets. -/
def readPtrs : Nat → List Nat → Option (List Nat × List Nat)
  | 0, bs => some ([], bs)
  | k + 1, bs =>
    match readN bs 8 with
    | none => none
    | some (w, bs1) =>
      match readPtrs k bs1 with
      | none => none
      | some (rest, bs2) => some (uintLE w :: rest, bs2)

/-- _get_Images: seek to start_pos, read the full pointer table, default a
missing frame range to (0, nframes), allocate the output array (ValueError
on a negative frame count), seek to pointer_array[framelims[0]] (IndexError
when out of range), then decode the frames sequentially. -/
def CineGetImages (bs : List Nat) (start_pos : Nat) (framelims : Option (Nat × Nat))
    (nframes nx ny bitCount : Nat) : Except CineErr (List Frame) :=
  match readPtrs nframes (bs.drop start_pos) with
  | none => .error .structError
  | some (ptrs, _) =>
    let fl := framelims.getD (0, nframes)
    if fl.2 < fl.1 then .error .valueError
    else
      match ptrs[fl.1]? with
      | none => .error .indexError
      | some p =>
        match decodeFrames nx ny bitCount (fl.2 - fl.1) (bs.drop p) with
        | none => .error .structError
        | some (frames, _) => .ok frames

/- ----------------------------------------------------------------------
   _read_cine and __init__. -/

structure Kwargs where
  no_tagged_blocks : Bool := false
  no_attributes : Bool := false
  read_images : Bool := true
  framelimits : Option (Nat × Nat) := none
deriving DecidableEq

structure CineResult where
  warnings : List String
  CineFileHeader : CineFileHeader
  BitmapInfoHeader : BitmapInfoHeader
  Setup : List (String × Nat)
  TaggedBlocks : TagDict
  images : Option (List Frame)
deriving DecidableEq

/-- _read_cine: header (44 bytes), bitmap header (40 bytes), seek to 224
and check the ST setup marker (a mismatch only prints a warning), read the
2-byte setup length, seek to 821 and read
setup_length - 597 - 1212 - 140 bytes for _get_Setup (a negative amount
makes Python read to end of file), seek past the setup, then tagged blocks
from tag_start = setup_length + 84 and images from OffImageOffsets. -/
def CineReadCine (bs : List Nat) (kw : Kwargs) : Except CineErr CineResult :=
  match readN bs 44 with
  | none => .error .structError
  | some (h44, rem1) =>
  match CineGetCineFileHeader h44 with
  | .error e => .error e
  | .ok cfh =>
  match readN rem1 40 with
  | none => .error .structError
  | some (b40, _) =>
  match CineGetBitmapInfoHeader b40 with
  | .error e => .error e
  | .ok bih =>
  match readN (bs.drop 224) 2 with
  | none => .error .structError
  | some (mark, _) =>
  let warns := if mark = [83, 84] then ([] : List String)
    else [("SETUP structure marker is incorrect.")]
  match readN (bs.drop 226) 2 with
  | none => .error .structError
  | some (sl2, _) =>
  let setup_length := uintLE sl2
  match (if setup_length < 1949 then some (bs.drop 821)
         else Option.map Prod.fst (readN (bs.drop 821) (setup_length - 1949))) with
  | none => .error .structError
  | some chunk =>
  match CineGetSetup chunk with
  | .error e => .error e
  | .ok setup =>
  match (if kw.no_tagged_blocks then Except.ok ([] : TagDict)
         else CineGetTaggedBlocks bs (setup_length + 84) cfh.OffImageOffsets
           cfh.TriggerTime kw.framelimits) with
  | .error e => .error e
  | .ok tb =>
  if kw.read_images then
    match CineGetImages bs cfh.OffImageOffsets kw.framelimits cfh.ImageCount
        ((dictGet setup ("ImWidth")).getD 0) ((dictGet setup ("ImHeight")).getD 0)
        bih.biBitCount with
    | .error e => .error e
    | .ok imgs => .ok ⟨warns, cfh, bih, setup, tb, some imgs⟩
  else .ok ⟨warns, cfh, bih, setup, tb, none⟩

/-- __init__: unpack the first two bytes, seek back to the top, assert the
magic equals CI (bytes 67, 73), then run _read_cine. -/
def CineInit (bs : List Nat) (kw : Kwargs) : Except CineErr CineResult :=
  match readN bs 2 with
  | none => .error .structError
  | some (ft, _) =>
    if ft = [67, 73] then CineReadCine bs kw
    else .error (.assertError ("File is not standard .cine format or file is corrupt."))

/- ----------------------------------------------------------------------
   Synthetic streams used by the theorems. -/

/-- An 8-byte tagged-block header: 4-byte BlockSize, 2-byte BlockType,
2-byte Reserved flag. -/
def mkTagHeader (sz t r : Nat) : List Nat := le32 sz ++ le16 t ++ le16 r

/-- Serialized TimeOnly payload: per entry a 4-byte Fraction then a 4-byte
Seconds value. -/
def timePayload : List (Nat × Nat) → List Nat
  | [] => []
  | p :: rest => le32 p.1 ++ le32 p.2 ++ timePayload rest

/-- A well-formed TimeOnly tagged block for an entry list. -/
def mkTimeBlock (e : List (Nat × Nat)) : List Nat :=
  mkTagHeader (8 + 8 * e.length) 1002 0 ++ timePayload e

/-- A stream holding one tagged block of type 1004 (RangeData): block size
8, no payload. -/
def bs1004 : List Nat := mkTagHeader 8 1004 0

/-- A stream whose single TimeOnly block declares BlockSize 24 while the
scan region [0, 12) is only 12 bytes long: the two entries are read from
bytes 8..23, past the scan bound. -/
def bsOver : List Nat := mkTagHeader 24 1002 0 ++ timePayload [(0, 0), (0, 0)]

/-- An image region for one 1x1 frame whose pixel payload is the two bytes
7, 1: pointer table [8], then AnnotationSize 8, ImageSize 2, payload. -/
def bs12 : List Nat :=
  [8, 0, 0, 0, 0, 0, 0, 0] ++ le32 8 ++ le32 2 ++ [7, 1]

/-- An image region with two 1x1 8-bit frames with pixel values 7 and 9:
pointer table [16, 25], each frame is AnnotationSize 8, ImageSize 1, one
payload byte. -/
def bsW : List Nat :=
  [16, 0, 0, 0, 0, 0, 0, 0] ++ [25, 0, 0, 0, 0, 0, 0, 0]
    ++ le32 8 ++ le32 1 ++ [7] ++ le32 8 ++ le32 1 ++ [9]

/-- A complete .cine stream: valid CI magic, OffImageOffsets 7004, zero
trigger time, ST marker, declared setup length 6904 (so the setup chunk has
the expected 4955 bytes, all zero), and one TimeOnly tagged block with a
single (0, 0) entry at tag_start 6988. -/
def bsC2 : List Nat :=
  [67, 73] ++ (List.replicate 30 0 ++ (le32 7004 ++ (List.replicate 188 0
    ++ ([83, 84] ++ (le16 6904 ++ (List.replicate 6760 0
    ++ (mkTagHeader 16 1002 0 ++ timePayload [(0, 0)])))))))

/-- A complete .cine stream whose declared setup length is 2000: the
hardcoded layout arithmetic then asks for 51 bytes where the fixed format
needs 4955, so the setup unpack fails. -/
def bsC6 : List Nat :=
  [67, 73] ++ List.replicate 222 0 ++ [83, 84] ++ le16 2000 ++ List.replicate 644 0

/- ----------------------------------------------------------------------
   Helper lemmas. -/

theorem readN_exact {l1 l2 : List Nat} {n : Nat} (h : l1.length = n) :
    readN (l1 ++ l2) n = some (l1, l2) := by
  subst h
  simp [readN, List.take_left, List.drop_left]

theorem le32_length (n : Nat) : (le32 n).length = 4 := by simp [le32]

theorem le16_length (n : Nat) : (le16 n).length = 2 := by simp [le16]

theorem le32_uintLE {n : Nat} (h : n < 2 ^ 32) : uintLE (le32 n) = n := by
  simp only [le32, uintLE]
  omega

theorem le16_uintLE {n : Nat} (h : n < 2 ^ 16) : uintLE (le16 n) = n := by
  simp only [le16, uintLE]
  omega

theorem mkTagHeader_length (sz t r : Nat) : (mkTagHeader sz t r).length = 8 := by
  simp [mkTagHeader, le32, le16]

theorem mkTagHeader_take4 (sz t r : Nat) : (mkTagHeader sz t r).take 4 = le32 sz := by
  simp [mkTagHeader, le32, le16]

theorem mkTagHeader_type (sz t r : Nat) :
    ((mkTagHeader sz t r).drop 4).take 2 = le16 t := by
  simp [mkTagHeader, le32, le16]

theorem timePayload_length (e : List (Nat × Nat)) : (timePayload e).length = 8 * e.length := by
  induction e with
  | nil => simp [timePayload]
  | cons p rest ih => simp [timePayload, le32, ih]; ring

theorem readTimeEntries_payload (e : List (Nat × Nat)) (rest : List Nat)
    (hb : ∀ p ∈ e, p.1 < 2 ^ 32 ∧ p.2 < 2 ^ 32) :
    readTimeEntries e.length (timePayload e ++ rest) = some (e, rest) := by
  induction e with
  | nil => simp [timePayload, readTimeEntries]
  | cons p tail ih =>
    have hp := hb p (by simp)
    have htail : ∀ q ∈ tail, q.1 < 2 ^ 32 ∧ q.2 < 2 ^ 32 := fun q hq => hb q (by simp [hq])
    simp only [timePayload, List.length_cons, List.append_assoc]
    rw [readTimeEntries]
    simp only [readN_exact (le32_length p.1), readN_exact (le32_length p.2), ih htail,
      le32_uintLE hp.1, le32_uintLE hp.2]

theorem pySlice_full (l : List α) : pySlice l 0 l.length = l := by
  simp [pySlice]

theorem pySlice_map (f : α → β) (l : List α) (a b : Nat) :
    pySlice (l.map f) a b = (pySlice l a b).map f := by
  simp [pySlice, List.map_drop, List.map_take]

theorem zip_pySlice (l : List (α × β)) (a b : Nat) :
    List.zip (pySlice (l.map Prod.fst) a b) (pySlice (l.map Prod.snd) a b) =
      pySlice l a b := by
  rw [pySlice_map, pySlice_map]
  calc List.zip ((pySlice l a b).map Prod.fst) ((pySlice l a b).map Prod.snd)
      = List.zip (pySlice l a b).unzip.1 (pySlice l a b).unzip.2 := by
        rw [List.unzip_eq_map]
    _ = pySlice l a b := by rw [List.zip_unzip]

theorem tagLoop_exit (off ts : Nat) (trig : Nat × Nat) (fl : Option (Nat × Nat))
    (f tl : Nat) (rem : List Nat) (d : TagDict) (h : ¬ tl + ts < off) :
    tagLoop off ts trig fl (f + 1) tl rem d = .ok (d, tl) := by
  simp [tagLoop, h]

theorem tagLoop_time_step (off ts a b f tl : Nat) (trig : Nat × Nat)
    (e : List (Nat × Nat)) (rest : List Nat) (d : TagDict)
    (hb : ∀ p ∈ e, p.1 < 2 ^ 32 ∧ p.2 < 2 ^ 32) (hsz : 8 + 8 * e.length < 2 ^ 32)
    (hcond : tl + ts < off) :
    tagLoop off ts trig (some (a, b)) (f + 1) tl (mkTimeBlock e ++ rest) d =
      tagLoop off ts trig (some (a, b)) f (tl + (8 + 8 * e.length)) rest
        (dictSet (dictSet d ("TimeOnly") (.pairs (pySlice e a b))) ("time_float")
          (.floats (pySlice (e.map fun p => timeFloatVal trig p.1 p.2) a b))) := by
  have hdiv : (8 + 8 * e.length - 8) / 8 = e.length := by omega
  rw [tagLoop, if_pos hcond, mkTimeBlock, List.append_assoc,
    readN_exact (mkTagHeader_length _ _ _)]
  simp only [mkTagHeader_take4, mkTagHeader_type, le32_uintLE hsz,
    le16_uintLE (by norm_num : (1002 : Nat) < 2 ^ 16)]
  simp only [tagStep, if_pos rfl, if_neg (by omega : ¬ 8 + 8 * e.length < 8), hdiv,
    readTimeEntries_payload e rest hb, if_neg (by norm_num : ¬ (1002 : Nat) = 1003),
    zip_pySlice]
  norm_num

theorem tagLoop_ok_bound (off ts : Nat) (trig : Nat × Nat) (fl : Option (Nat × Nat)) :
    ∀ (fuel tl : Nat) (rem : List Nat) (d d' : TagDict) (tl' : Nat),
      tagLoop off ts trig fl fuel tl rem d = .ok (d', tl') → off ≤ tl' + ts := by
  intro fuel
  induction fuel with
  | zero => intro tl rem d d' tl' h; simp [tagLoop] at h
  | succ f ih =>
    intro tl rem d d' tl' h
    rw [tagLoop] at h
    by_cases hc : tl + ts < off
    · rw [if_pos hc] at h
      cases hr : readN rem 8 with
      | none => rw [hr] at h; cases h
      | some pr =>
        obtain ⟨hdr, rem1⟩ := pr
        rw [hr] at h
        simp only at h
        split at h
        · split at h
          · cases h
          · exact ih _ _ _ _ _ h
        · cases h
    · rw [if_neg hc] at h
      cases h
      omega

theorem dictSet_keys (d : List (String × α)) (k : String) (v : α) :
    ∀ x ∈ (dictSet d k v).map Prod.fst, x = k ∨ x ∈ d.map Prod.fst := by
  induction d with
  | nil => simp [dictSet]
  | cons p rest ih =>
    by_cases hk : p.1 = k
    · intro x hx
      rw [show dictSet (p :: rest) k v = (k, v) :: rest by
        rw [dictSet.eq_def]; simp [hk]] at hx
      simp at hx
      rcases hx with hx | hx
      · exact Or.inl hx
      · exact Or.inr (by simp [hx])
    · intro x hx
      rw [show dictSet (p :: rest) k v = p :: dictSet rest k v by
        rw [dictSet.eq_def]; simp [hk]] at hx
      simp at hx
      rcases hx with hx | hx
      · exact Or.inr (by simp [hx])
      · rcases ih x (by simpa using hx) with h1 | h1
        · exact Or.inl h1
        · exact Or.inr (by simp [h1])

theorem dictSet_dictSet_keys (d : List (String × α)) (k1 k2 : String) (v1 : α) (v2 : α) :
    ∀ x ∈ (dictSet (dictSet d k1 v1) k2 v2).map Prod.fst,
      x = k1 ∨ x = k2 ∨ x ∈ d.map Prod.fst := by
  intro x hx
  rcases dictSet_keys _ _ _ x hx with h | h
  · exact Or.inr (Or.inl h)
  · rcases dictSet_keys _ _ _ x h with h1 | h1
    · exact Or.inl h1
    · exact Or.inr (Or.inr h1)


theorem tagStep_keys (trig : Nat × Nat) (fl : Option (Nat × Nat))
    (BlockSize BlockType : Nat) (rem : List Nat) (d : TagDict)
    (rem2 : List Nat) (d2 : TagDict)
    (h : tagStep trig fl BlockSize BlockType rem d = .ok (rem2, d2)) :
    ∀ x ∈ d2.map Prod.fst,
      x ∈ d.map Prod.fst ∨
        x ∈ (["TimeOnly", "time_float", "ExposureOnly", "exposure_float"] : List String) := by
  simp only [tagStep] at h
  split at h
  · cases h
  · rename_i rem2' d2' hstep
    have hstep_keys : ∀ x ∈ d2'.map Prod.fst,
        x ∈ d.map Prod.fst ∨
          x ∈ (["TimeOnly", "time_float", "ExposureOnly", "exposure_float"] : List String) := by
      split at hstep
      · split at hstep
        · cases hstep
        · split at hstep
          · cases hstep
          · split at hstep
            · cases hstep
            · cases hstep
              intro x hx
              rcases dictSet_dictSet_keys _ _ _ _ _ x hx with h2 | h2 | h2
              · simp [h2]
              · simp [h2]
              · exact Or.inl h2
      · cases hstep
        exact fun x hx => Or.inl hx
    split at h
    · split at h
      · cases h
      · split at h
        · cases h
        · split at h
          · cases h
          · cases h
            intro x hx
            rcases dictSet_dictSet_keys _ _ _ _ _ x hx with h2 | h2 | h2
            · simp [h2]
            · simp [h2]
            · exact hstep_keys x h2
    · cases h
      exact hstep_keys

theorem tagLoop_keys (off ts : Nat) (trig : Nat × Nat) (fl : Option (Nat × Nat)) :
    ∀ (fuel tl : Nat) (rem : List Nat) (d d' : TagDict) (tl' : Nat),
      tagLoop off ts trig fl fuel tl rem d = .ok (d', tl') →
      ∀ x ∈ d'.map Prod.fst,
        x ∈ d.map Prod.fst ∨
          x ∈ (["TimeOnly", "time_float", "ExposureOnly", "exposure_float"] : List String) := by
  intro fuel
  induction fuel with
  | zero => intro tl rem d d' tl' h; simp [tagLoop] at h
  | succ f ih =>
    intro tl rem d d' tl' h
    rw [tagLoop] at h
    by_cases hc : tl + ts < off
    · rw [if_pos hc] at h
      cases hr : readN rem 8 with
      | none => rw [hr] at h; cases h
      | some pr =>
        obtain ⟨hdr, rem1⟩ := pr
        rw [hr] at h
        simp only at h
        split at h
        · split at h
          · cases h
          · rename_i hstep
            intro x hx
            rcases ih _ _ _ _ _ h x hx with h1 | h1
            · exact tagStep_keys _ _ _ _ _ _ _ _ hstep x h1
            · exact Or.inr h1
        · cases h
    · rw [if_neg hc] at h
      cases h
      exact fun x hx => Or.inl hx

theorem decodeFrame_bitCount (nx ny bc : Nat) (rem : List Nat) (h : bc ≠ 8) :
    decodeFrame nx ny bc rem = decodeFrame nx ny 16 rem := by
  simp [decodeFrame, h]

theorem decodeFrames_bitCount (nx ny bc : Nat) (h : bc ≠ 8) :
    ∀ (n : Nat) (rem : List Nat),
      decodeFrames nx ny bc n rem = decodeFrames nx ny 16 n rem := by
  intro n
  induction n with
  | zero => intro rem; rfl
  | succ k ih =>
    intro rem
    rw [decodeFrames, decodeFrames, decodeFrame_bitCount nx ny bc rem h]
    cases decodeFrame nx ny 16 rem with
    | none => rfl
    | some pr => simp only [ih]

theorem decodeFrames_length (nx ny bc : Nat) :
    ∀ (n : Nat) (rem : List Nat) (fs : List Frame) (r : List Nat),
      decodeFrames nx ny bc n rem = some (fs, r) → fs.length = n := by
  intro n
  induction n with
  | zero => intro rem fs r h; cases h; rfl
  | succ k ih =>
    intro rem fs r h
    rw [decodeFrames] at h
    cases hf : decodeFrame nx ny bc rem with
    | none => rw [hf] at h; cases h
    | some pr =>
      obtain ⟨f, rem'⟩ := pr
      rw [hf] at h
      simp only at h
      cases hfs : decodeFrames nx ny bc k rem' with
      | none => rw [hfs] at h; cases h
      | some pr2 =>
        obtain ⟨fs2, rem2⟩ := pr2
        rw [hfs] at h
        cases h
        simp [ih _ _ _ hfs]

theorem decodeFrames_split (nx ny bc : Nat) :
    ∀ (a b : Nat) (rem : List Nat) (fs : List Frame) (r : List Nat),
      decodeFrames nx ny bc (a + b) rem = some (fs, r) →
      ∃ r1, decodeFrames nx ny bc a rem = some (fs.take a, r1) ∧
        decodeFrames nx ny bc b r1 = some (fs.drop a, r) := by
  intro a
  induction a with
  | zero =>
    intro b rem fs r h
    exact ⟨rem, rfl, by simpa using h⟩
  | succ k ih =>
    intro b rem fs r h
    have hsh : k + 1 + b = (k + b) + 1 := by omega
    rw [hsh, decodeFrames] at h
    cases hf : decodeFrame nx ny bc rem with
    | none => rw [hf] at h; cases h
    | some pr =>
      obtain ⟨f, rem'⟩ := pr
      rw [hf] at h
      simp only at h
      cases hfs : decodeFrames nx ny bc (k + b) rem' with
      | none => rw [hfs] at h; cases h
      | some pr2 =>
        obtain ⟨fs2, rem2⟩ := pr2
        rw [hfs] at h
        cases h
        obtain ⟨r1, h1, h2⟩ := ih b rem' fs2 r hfs
        refine ⟨r1, ?_, ?_⟩
        · rw [decodeFrames, hf]
          simp only [h1, List.take_succ_cons]
        · simpa using h2

theorem readPtrs_length :
    ∀ (n : Nat) (bs : List Nat) (ptrs rest : List Nat),
      readPtrs n bs = some (ptrs, rest) → ptrs.length = n := by
  intro n
  induction n with
  | zero => intro bs ptrs rest h; cases h; rfl
  | succ k ih =>
    intro bs ptrs rest h
    rw [readPtrs] at h
    cases hr : readN bs 8 with
    | none => rw [hr] at h; cases h
    | some pr =>
      obtain ⟨w, bs1⟩ := pr
      rw [hr] at h
      simp only at h
      cases hp : readPtrs k bs1 with
      | none => rw [hp] at h; cases h
      | some pr2 =>
        obtain ⟨rest2, bs2⟩ := pr2
        rw [hp] at h
        cases h
        simp [ih _ _ _ hp]


theorem dropPeel (l1 : List Nat) {l2 : List Nat} (n m : Nat) (h : l1.length + m = n) :
    (l1 ++ l2).drop n = l2.drop m := by
  rw [← h, List.drop_append]

theorem fld_take (l : List Nat) (m off w : Nat) (h : off + w ≤ m) :
    fld (l.take m) off w = fld l off w := by
  rw [fld, fld, List.drop_take, List.take_take, Nat.min_def]
  rw [if_pos (by omega)]

theorem bsC2_length : bsC2.length = 7004 := by
  simp only [bsC2, mkTagHeader, le32, le16, timePayload, List.length_append,
    List.length_replicate, List.length_cons, List.length_nil]

theorem bsC2_take2 : bsC2.take 2 = [67, 73] := by
  rw [bsC2, List.take_append_of_le_length (by norm_num)]
  rfl

theorem bsC2_off : fld bsC2 32 4 = 7004 := by
  rw [fld, bsC2]
  rw [dropPeel [67, 73] 32 30 (by norm_num),
    dropPeel (List.replicate 30 0) 30 0 (by norm_num), List.drop_zero]
  rw [List.take_append_of_le_length (by norm_num [le32])]
  rw [List.take_of_length_le (by norm_num [le32])]
  rw [le32_uintLE (by norm_num)]

theorem bsC2_setuplen : (bsC2.drop 226).take 2 = le16 6904 := by
  rw [bsC2]
  rw [dropPeel [67, 73] 226 224 (by norm_num),
    dropPeel (List.replicate 30 0) 224 194 (by norm_num),
    dropPeel (le32 7004) 194 190 (by norm_num [le32]),
    dropPeel (List.replicate 188 0) 190 2 (by norm_num),
    dropPeel [83, 84] 2 0 (by norm_num), List.drop_zero]
  rw [List.take_append_of_le_length (by norm_num [le16])]
  rw [List.take_of_length_le (by norm_num [le16])]

theorem bsC2_tagchunk :
    bsC2.drop (6904 + 84) = mkTagHeader 16 1002 0 ++ timePayload [(0, 0)] := by
  rw [bsC2]
  rw [dropPeel [67, 73] (6904 + 84) 6986 (by norm_num),
    dropPeel (List.replicate 30 0) 6986 6956 (by norm_num),
    dropPeel (le32 7004) 6956 6952 (by norm_num [le32]),
    dropPeel (List.replicate 188 0) 6952 6764 (by norm_num),
    dropPeel [83, 84] 6764 6762 (by norm_num),
    dropPeel (le16 6904) 6762 6760 (by norm_num [le16]),
    dropPeel (List.replicate 6760 0) 6760 0 (by norm_num), List.drop_zero]

theorem bsC2_tagged (trig : Nat × Nat) :
    CineGetTaggedBlocks bsC2 (6904 + 84) 7004 trig none = .error .typeError := by
  rw [CineGetTaggedBlocks, CineGetTaggedBlocksLen, bsC2_tagchunk]
  have hl : (mkTagHeader 16 1002 0 ++ timePayload [(0, 0)]).length = 16 := by
    norm_num [mkTagHeader, le32, le16, timePayload]
  rw [hl]
  rw [tagLoop, if_pos (by norm_num), readN_exact (mkTagHeader_length _ _ _)]
  simp only [mkTagHeader_take4, mkTagHeader_type,
    le32_uintLE (by norm_num : (16 : Nat) < 2 ^ 32),
    le16_uintLE (by norm_num : (1002 : Nat) < 2 ^ 16)]
  rw [if_pos (by norm_num)]
  rw [show timePayload [((0 : Nat), (0 : Nat))] =
    timePayload [(0, 0)] ++ ([] : List Nat) from (List.append_nil _).symm]
  simp only [tagStep, if_pos rfl, if_neg (by norm_num : ¬ (16 : Nat) < 8),
    show ((16 : Nat) - 8) / 8 = 1 from by norm_num]
  rw [show (1 : Nat) = [((0 : Nat), (0 : Nat))].length from rfl]
  rw [readTimeEntries_payload [(0, 0)] [] (by norm_num)]
  simp [Except.map]

/- ----------------------------------------------------------------------
   Claim theorems. -/

/-- C7: for every stream whose first two bytes are any two-character value
other than the CI magic, construction fails with the magic assert before
any header is parsed, and the outcome depends only on those first two
bytes (no byte beyond the first two is consumed). -/
theorem c7_magic_mismatch_fatal (bs : List Nat) (kw : Kwargs)
    (hlen : 2 ≤ bs.length) (hm : bs.take 2 ≠ [67, 73]) :
    CineInit bs kw =
      .error (.assertError ("File is not standard .cine format or file is corrupt.")) ∧
    ∀ bs2 : List Nat, bs2.take 2 = bs.take 2 → CineInit bs2 kw = CineInit bs kw := by
  have h1 : readN bs 2 = some (bs.take 2, bs.drop 2) := by simp [readN, hlen]
  constructor
  · rw [CineInit, h1]
    simp [hm]
  · intro bs2 h2
    have hlen2 : 2 ≤ bs2.length := by
      have := congrArg List.length h2
      simp [List.length_take] at this
      omega
    have h1b : readN bs2 2 = some (bs2.take 2, bs2.drop 2) := by simp [readN, hlen2]
    rw [CineInit, h1b, CineInit, h1]
    simp [h2, hm]

/-- C7 witness: a concrete stream starting with two zero bytes. -/
theorem c7_witness :
    CineInit [0, 0, 1, 2] {} =
      .error (.assertError ("File is not standard .cine format or file is corrupt.")) :=
  (c7_magic_mismatch_fatal [0, 0, 1, 2] {} (by norm_num) (by decide)).1

set_option maxRecDepth 40000 in
/-- C3 counterexample: a stream whose bit depth is 12 (neither 8 nor 16)
is decoded without any error: the pixel payload is interpreted as 16-bit
samples (bytes 7, 1 become the sample 263), refuting the claim that an
unsupported bit depth is fatal before any frame read. -/
theorem c3_counterexample_bitdepth12_decodes :
    CineGetImages bs12 0 none 1 1 1 12 = .ok [[[263]]] := by decide

/-- C3 amended: image decoding performs no bit-depth validation: bit depth
8 selects the 8-bit sample path and every other bit depth behaves exactly
like 16; no fatal error is raised for unsupported depths. -/
theorem c3_amended_nondefault_depth_uses_16bit (bs : List Nat)
    (sp N nx ny bc : Nat) (fl : Option (Nat × Nat)) (h : bc ≠ 8) :
    CineGetImages bs sp fl N nx ny bc = CineGetImages bs sp fl N nx ny 16 := by
  unfold CineGetImages
  simp only [decodeFrames_bitCount nx ny bc h]

/-- C3 witness: the amended statement at bit depth 12 on the concrete
stream. -/
theorem c3_witness :
    CineGetImages bs12 0 none 1 1 1 12 = CineGetImages bs12 0 none 1 1 1 16 :=
  c3_amended_nondefault_depth_uses_16bit bs12 0 1 1 1 12 none (by norm_num)

/-- C5: whenever _get_Setup succeeds, the returned setup record holds
exactly the twenty retained numeric fields; the NUL-stripped Description
string (the local desc_string, CineSetupDesc here) is not among them: the
source computes it and drops it, so it is not exposed to the caller. -/
theorem c5_description_not_exposed (c : List Nat) (h : c.length = setupWidths.sum) :
    Except.map (fun d => d.map Prod.fst) (CineGetSetup c) =
      .ok ["ImWidth", "ImHeight", "Serial", "FrameRate", "PostTrigger", "CameraVersion",
        "FirmwareVersion", "SoftwareVersion", "RealBPP", "CICalib", "CalibWidth",
        "CalibHeight", "CalibRate", "CalibExp", "CalibEDR", "CalibTemp", "Sensor",
        "ShutterNs", "EDRShutterNs", "FrameDelayNs"] ∧
    ∀ d, CineGetSetup c = .ok d → ("Description") ∉ d.map Prod.fst := by
  rw [CineGetSetup, if_pos h]
  refine ⟨rfl, ?_⟩
  intro d hd
  cases hd
  intro hmem
  simp at hmem

set_option maxRecDepth 40000 in
/-- C5 witness: the all-zero setup chunk of the expected length. -/
theorem c5_witness :
    Except.map (fun d => d.map Prod.fst) (CineGetSetup (List.replicate 4955 0)) =
      .ok ["ImWidth", "ImHeight", "Serial", "FrameRate", "PostTrigger", "CameraVersion",
        "FirmwareVersion", "SoftwareVersion", "RealBPP", "CICalib", "CalibWidth",
        "CalibHeight", "CalibRate", "CalibExp", "CalibEDR", "CalibTemp", "Sensor",
        "ShutterNs", "EDRShutterNs", "FrameDelayNs"] :=
  (c5_description_not_exposed (List.replicate 4955 0)
    (by rw [List.length_replicate]; decide)).1

set_option maxRecDepth 200000 in
/-- C6 counterexample: a full stream with valid magic whose declared setup
length is 2000 makes the setup-length arithmetic produce a 51-byte chunk
for the 4955-byte fixed layout; decoding aborts with the fatal unpack
error instead of warning and continuing. -/
theorem c6_counterexample_length_mismatch_fatal :
    CineInit bsC6 {} = .error .structError := by decide

set_option maxRecDepth 40000 in
/-- C6 amended: a setup chunk whose length differs from the 4955-byte
calcsize of the hardcoded format makes _get_Setup fail with the fatal
struct unpack error (decode aborts); only the ST setup-marker mismatch is
reported as a non-fatal warning. -/
theorem c6_amended_setup_unpack_exact_length (c : List Nat)
    (h : c.length ≠ setupWidths.sum) :
    CineGetSetup c = .error .structError ∧ setupWidths.sum = 4955 := by
  rw [CineGetSetup, if_neg h]
  exact ⟨rfl, by decide⟩

set_option maxRecDepth 40000 in
/-- C6 witness: the empty chunk. -/
theorem c6_witness : CineGetSetup [] = .error .structError ∧ setupWidths.sum = 4955 :=
  c6_amended_setup_unpack_exact_length [] (by decide)

set_option maxRecDepth 40000 in
/-- C2: with the default framelimits of None, decoding a stream that
contains a TimeOnly tagged block raises TypeError when the per-frame
sequences are sliced with framelims[0] (None is not subscriptable):
_get_TaggedBlocks never applies the [0, N) default, so constructing a Cine
object with default arguments aborts on the complete stream bsC2 instead
of succeeding with the full range.  Only _get_Images replaces a missing
frame range by (0, nframes). -/
theorem c2_default_framelimits_crash :
    CineInit bsC2 {} = .error .typeError ∧
    CineGetTaggedBlocks (mkTimeBlock [(0, 0)]) 0 16 (0, 0) none = .error .typeError ∧
    Kwargs.framelimits {} = none ∧
    ∀ (bs : List Nat) (sp N nx ny bc : Nat),
      CineGetImages bs sp none N nx ny bc = CineGetImages bs sp (some (0, N)) N nx ny bc := by
  refine ⟨?_, by decide, rfl, fun _ _ _ _ _ _ => rfl⟩
  have hlen := bsC2_length
  have hsum : setupWidths.sum = 4955 := by decide
  rw [CineInit]
  rw [show readN bsC2 2 = some ([67, 73], bsC2.drop 2) from by
    rw [readN, if_pos (by omega), bsC2_take2]]
  dsimp only
  rw [if_pos rfl]
  rw [CineReadCine]
  rw [show readN bsC2 44 = some (bsC2.take 44, bsC2.drop 44) from by
    rw [readN, if_pos (by omega)]]
  dsimp only
  rw [CineGetCineFileHeader, if_pos (by rw [List.length_take]; omega)]
  dsimp only
  rw [show readN (bsC2.drop 44) 40 =
      some ((bsC2.drop 44).take 40, (bsC2.drop 44).drop 40) from by
    rw [readN, if_pos (by rw [List.length_drop]; omega)]]
  dsimp only
  rw [CineGetBitmapInfoHeader, if_pos (by rw [List.length_take, List.length_drop]; omega)]
  dsimp only
  rw [show readN (bsC2.drop 224) 2 =
      some ((bsC2.drop 224).take 2, (bsC2.drop 224).drop 2) from by
    rw [readN, if_pos (by rw [List.length_drop]; omega)]]
  dsimp only
  rw [show readN (bsC2.drop 226) 2 = some (le16 6904, (bsC2.drop 226).drop 2) from by
    rw [readN, if_pos (by rw [List.length_drop]; omega), bsC2_setuplen]]
  dsimp only
  rw [le16_uintLE (by norm_num)]
  rw [if_neg (by norm_num : ¬ (6904 : Nat) < 1949)]
  rw [show readN (bsC2.drop 821) (6904 - 1949) =
      some ((bsC2.drop 821).take (6904 - 1949), (bsC2.drop 821).drop (6904 - 1949)) from by
    rw [readN, if_pos (by rw [List.length_drop]; omega)]]
  dsimp only [Option.map]
  rw [CineGetSetup, if_pos (by rw [List.length_take, List.length_drop, hlen, hsum]; omega)]
  dsimp only
  rw [show fld (bsC2.take 44) 32 4 = 7004 from by
    rw [fld_take bsC2 44 32 4 (by omega), bsC2_off]]
  rw [bsC2_tagged]
  rw [if_neg (by norm_num : ¬ (false = true))]

set_option maxRecDepth 40000 in
/-- C4 counterexample: a TimeOnly block declaring BlockSize 24 inside the
scan region [0, 12) reads its two entries from bytes 8..23, past the scan
bound, and the loop then terminates cleanly with accumulated length 24,
which is not equal to OffImageOffsets - tag_start = 12: the overshoot is
not detected as an error. -/
theorem c4_counterexample_overshoot_accepted :
    Except.map Prod.snd (CineGetTaggedBlocksLen bsOver 0 12 (0, 0) (some (0, 2))) =
      .ok 24 ∧
    12 - 0 ≠ 24 := ⟨by decide, by decide⟩

/-- C4 amended: when the tagged-block loop terminates cleanly, the
accumulated length has reached or passed the scan bound,
OffImageOffsets ≤ tagged_length + tag_start; exact equality is not
checked, an overshooting sequence is silently accepted, and its payload
bytes past OffImageOffsets are consumed. -/
theorem c4_amended_termination_bound (bs : List Nat) (ts off : Nat)
    (trig : Nat × Nat) (fl : Option (Nat × Nat)) (tl : Nat)
    (h : Except.map Prod.snd (CineGetTaggedBlocksLen bs ts off trig fl) = .ok tl) :
    off ≤ tl + ts := by
  cases hx : CineGetTaggedBlocksLen bs ts off trig fl with
  | error e => rw [hx] at h; cases h
  | ok pr =>
    obtain ⟨d, tl0⟩ := pr
    rw [hx] at h
    cases h
    exact tagLoop_ok_bound off ts trig fl _ _ _ _ _ _ hx

set_option maxRecDepth 40000 in
/-- C4 witness: the amended bound at the concrete overshooting stream. -/
theorem c4_witness : (12 : Nat) ≤ 24 + 0 :=
  c4_amended_termination_bound bsOver 0 12 (0, 0) (some (0, 2)) 24 (by decide)

set_option maxRecDepth 40000 in
/-- C1 counterexample: a tagged block with type code 1004 (neither 1002
nor 1003) passes the type-code assert, is silently skipped (no payload is
decoded), and the scan returns an empty blocks dict instead of raising
the unsupported-type error. -/
theorem c1_counterexample_type1004_accepted :
    CineGetTaggedBlocks bs1004 0 8 (0, 0) none = .ok [] := by decide

/-- C1 amended: the type-code assert fires exactly for codes outside
tag_type_dict, that is outside 1002..1006: such a block raises the
unsupported-type assertion at the point of encountering it; the codes
1004, 1005 and 1006 instead pass the assert, fall through both decode
branches without consuming payload bytes or touching the dict, and the
loop continues. -/
theorem c1_amended_unknown_type_assertion (sz t r off : Nat) (rest : List Nat)
    (trig : Nat × Nat) (fl : Option (Nat × Nat))
    (hsz : sz < 2 ^ 32) (ht : t < 2 ^ 16) (hoff : 0 < off) :
    (t ∉ ([1002, 1003, 1004, 1005, 1006] : List Nat) →
      CineGetTaggedBlocks (mkTagHeader sz t r ++ rest) 0 off trig fl =
        .error (.assertError ("Unknown tagged block type: " ++ toString t))) ∧
    ((t = 1004 ∨ t = 1005 ∨ t = 1006) → off ≤ sz →
      CineGetTaggedBlocksLen (mkTagHeader sz t r ++ rest) 0 off trig fl = .ok ([], sz)) := by
  have hlen : (mkTagHeader sz t r ++ rest).length = 8 + rest.length := by
    simp [List.length_append, mkTagHeader_length]
  constructor
  · intro hmem
    have hne : ¬ (t = 1002 ∨ t = 1003 ∨ t = 1004 ∨ t = 1005 ∨ t = 1006) := by
      simpa using hmem
    rw [CineGetTaggedBlocks, CineGetTaggedBlocksLen]
    simp only [List.drop_zero]
    rw [hlen, tagLoop, if_pos (by omega : 0 + 0 < off),
      readN_exact (mkTagHeader_length sz t r)]
    simp only [mkTagHeader_take4, mkTagHeader_type, le32_uintLE hsz, le16_uintLE ht]
    rw [if_neg hne]
    rfl
  · intro ht3 hos
    have h2 : t ≠ 1002 := by rcases ht3 with h | h | h <;> omega
    have h3 : t ≠ 1003 := by rcases ht3 with h | h | h <;> omega
    have hk : t = 1002 ∨ t = 1003 ∨ t = 1004 ∨ t = 1005 ∨ t = 1006 := by tauto
    rw [CineGetTaggedBlocksLen]
    simp only [List.drop_zero]
    rw [hlen, tagLoop, if_pos (by omega : 0 + 0 < off),
      readN_exact (mkTagHeader_length sz t r)]
    simp only [mkTagHeader_take4, mkTagHeader_type, le32_uintLE hsz, le16_uintLE ht]
    rw [if_pos hk]
    simp only [tagStep, if_neg h2, if_neg h3]
    rw [show 8 + rest.length = (7 + rest.length) + 1 by omega]
    rw [tagLoop_exit _ _ _ _ _ _ _ _ (by omega : ¬ 0 + sz + 0 < off)]
    norm_num

/-- C1 witness: type code 9999 raises the assertion; type code 1004 with a
bare header is accepted with an unchanged empty dict. -/
theorem c1_witness :
    CineGetTaggedBlocks (mkTagHeader 8 9999 0 ++ []) 0 8 (0, 0) none =
      .error (.assertError ("Unknown tagged block type: " ++ toString 9999)) ∧
    CineGetTaggedBlocksLen (mkTagHeader 8 1004 0 ++ []) 0 8 (0, 0) none = .ok ([], 8) :=
  ⟨(c1_amended_unknown_type_assertion 8 9999 0 8 [] (0, 0) none (by norm_num)
      (by norm_num) (by norm_num)).1 (by decide),
   (c1_amended_unknown_type_assertion 8 1004 0 8 [] (0, 0) none (by norm_num)
      (by norm_num) (by norm_num)).2 (by norm_num) (by norm_num)⟩

theorem pySlice_full_of (l : List α) (b : Nat) (h : l.length ≤ b) : pySlice l 0 b = l := by
  simp only [pySlice, List.drop_zero, Nat.sub_zero]
  exact List.take_of_length_le h

set_option maxRecDepth 40000 in
/-- C8: a TimeOnly block is decoded as BlockSize minus 8 over 8 entries,
each read as a 4-byte fraction followed by a 4-byte seconds value, and the
derived relative-time sequence applies timeFloatVal, that is
(seconds - trigger.seconds) + (fraction - trigger.fraction) / 2^32, to
every entry; the rational values are exactly the float128 values the
source computes, since every intermediate fits the 64-bit mantissa. -/
theorem c8_timeonly_decode_formula (e : List (Nat × Nat)) (trig : Nat × Nat)
    (hb : ∀ p ∈ e, p.1 < 2 ^ 32 ∧ p.2 < 2 ^ 32) (hsz : 8 + 8 * e.length < 2 ^ 32) :
    CineGetTaggedBlocks (mkTimeBlock e) 0 (8 + 8 * e.length) trig (some (0, e.length)) =
      .ok [(("TimeOnly"), .pairs e),
           (("time_float"), .floats (e.map fun p => timeFloatVal trig p.1 p.2))] := by
  have hlen : (mkTimeBlock e).length = 8 + 8 * e.length := by
    simp [mkTimeBlock, mkTagHeader_length, timePayload_length]
  rw [CineGetTaggedBlocks, CineGetTaggedBlocksLen]
  simp only [List.drop_zero]
  rw [hlen]
  have hstep := tagLoop_time_step (8 + 8 * e.length) 0 0 e.length (8 + 8 * e.length) 0
    trig e [] [] hb hsz (by omega)
  rw [List.append_nil] at hstep
  rw [hstep]
  rw [show 8 + 8 * e.length = (7 + 8 * e.length) + 1 by omega]
  rw [tagLoop_exit _ _ _ _ _ _ _ _ (by omega)]
  have hs1 : pySlice e 0 e.length = e := pySlice_full_of e e.length (le_refl _)
  have hs2 : pySlice (e.map fun p => timeFloatVal trig p.1 p.2) 0 e.length =
      e.map fun p => timeFloatVal trig p.1 p.2 :=
    pySlice_full_of _ _ (by simp)
  rw [hs1, hs2]
  simp [dictSet, Except.map]

set_option maxRecDepth 40000 in
/-- C8 witness: trigger (fraction 0, seconds 1000) and a single entry
(fraction 0, seconds 1000) yield a relative time of exactly 0. -/
theorem c8_witness :
    CineGetTaggedBlocks (mkTimeBlock [(0, 1000)]) 0 16 (0, 1000) (some (0, 1)) =
      .ok [(("TimeOnly"), .pairs [(0, 1000)]), (("time_float"), .floats [0])] := by
  have h := c8_timeonly_decode_formula [(0, 1000)] (0, 1000) (by norm_num) (by norm_num)
  refine Eq.trans h ?_
  norm_num [timeFloatVal]

/-- C10: the tagged-block result dict is keyed by the fixed per-type names
only (at most TimeOnly, time_float, ExposureOnly, exposure_float appear),
and when a stream holds two TimeOnly blocks the later dict assignments
overwrite the earlier ones, so only the second payload is retained. -/
theorem c10_fixed_keys_last_wins :
    (∀ (bs : List Nat) (ts off : Nat) (trig : Nat × Nat) (fl : Option (Nat × Nat))
        (d : TagDict),
      CineGetTaggedBlocks bs ts off trig fl = .ok d →
      ∀ x ∈ d.map Prod.fst,
        x ∈ (["TimeOnly", "time_float", "ExposureOnly", "exposure_float"] : List String)) ∧
    (∀ (e1 e2 : List (Nat × Nat)) (a b : Nat) (trig : Nat × Nat),
      (∀ p ∈ e1, p.1 < 2 ^ 32 ∧ p.2 < 2 ^ 32) → (∀ p ∈ e2, p.1 < 2 ^ 32 ∧ p.2 < 2 ^ 32) →
      8 + 8 * e1.length < 2 ^ 32 → 8 + 8 * e2.length < 2 ^ 32 →
      CineGetTaggedBlocks (mkTimeBlock e1 ++ mkTimeBlock e2) 0
          (8 + 8 * e1.length + (8 + 8 * e2.length)) trig (some (a, b)) =
        .ok [(("TimeOnly"), .pairs (pySlice e2 a b)),
             (("time_float"), .floats (pySlice (e2.map fun p => timeFloatVal trig p.1 p.2) a b))]) := by
  constructor
  · intro bs ts off trig fl d h
    cases hx : CineGetTaggedBlocksLen bs ts off trig fl with
    | error e => rw [CineGetTaggedBlocks, hx] at h; cases h
    | ok pr =>
      obtain ⟨d0, tl0⟩ := pr
      rw [CineGetTaggedBlocks, hx] at h
      cases h
      rw [CineGetTaggedBlocksLen] at hx
      intro x hxm
      rcases tagLoop_keys off ts trig fl _ _ _ _ _ _ hx x hxm with h1 | h1
      · simp at h1
      · exact h1
  · intro e1 e2 a b trig hb1 hb2 hsz1 hsz2
    rw [CineGetTaggedBlocks, CineGetTaggedBlocksLen]
    simp only [List.drop_zero]
    rw [show (mkTimeBlock e1 ++ mkTimeBlock e2).length + 1 =
        14 + 8 * e1.length + 8 * e2.length + 1 + 1 + 1 by
      simp [mkTimeBlock, mkTagHeader_length, timePayload_length, List.length_append]
      omega]
    rw [tagLoop_time_step _ _ _ _ _ _ _ _ _ _ hb1 hsz1 (by omega)]
    rw [show mkTimeBlock e2 = mkTimeBlock e2 ++ [] from (List.append_nil _).symm]
    rw [tagLoop_time_step _ _ _ _ _ _ _ _ _ _ hb2 hsz2 (by omega)]
    rw [tagLoop_exit _ _ _ _ _ _ _ _ (by omega)]
    simp [dictSet, Except.map]

/-- C10 witness: two singleton TimeOnly blocks; the dict holds the second
entry list only. -/
theorem c10_witness :
    CineGetTaggedBlocks (mkTimeBlock [(1, 2)] ++ mkTimeBlock [(3, 4)]) 0 32 (0, 0)
        (some (0, 1)) =
      .ok [(("TimeOnly"), .pairs (pySlice [(3, 4)] 0 1)),
           (("time_float"),
             .floats (pySlice ([(3, 4)].map fun p => timeFloatVal (0, 0) p.1 p.2) 0 1))] :=
  c10_fixed_keys_last_wins.2 [(1, 2)] [(3, 4)] 0 1 (0, 0) (by norm_num) (by norm_num)
    (by norm_num) (by norm_num)

/-- C9: for a stream whose frame-offset table is consistent with the
sequential frame layout (pointer_array[lo] addresses the byte right after
the first lo frames), decoding the range [lo, hi) with lo < hi ≤ ImageCount
yields exactly the slice [lo, hi) of the full decode, hence hi - lo frames
in ascending frame order. -/
theorem c9_framerange_slicing (bs : List Nat) (sp N nx ny bc lo hi : Nat)
    (ptrs tailB : List Nat) (allFrames : List Frame)
    (hp : readPtrs N (bs.drop sp) = some (ptrs, tailB))
    (hlo : lo < hi) (hhi : hi ≤ N)
    (hfull : CineGetImages bs sp none N nx ny bc = .ok allFrames)
    (hcons : Option.map Prod.snd (decodeFrames nx ny bc lo (bs.drop (ptrs.getD 0 0))) =
      some (bs.drop (ptrs.getD lo 0))) :
    CineGetImages bs sp (some (lo, hi)) N nx ny bc =
      .ok ((allFrames.drop lo).take (hi - lo)) ∧
    ((allFrames.drop lo).take (hi - lo)).length = hi - lo := by
  have hplen : ptrs.length = N := readPtrs_length N _ _ _ hp
  have hN : 0 < N := by omega
  have hidx0 : ptrs[0]? = some (ptrs.getD 0 0) := by
    rw [List.getElem?_eq_getElem (by omega), List.getD_eq_getElem _ _ (by omega)]
  have hidxlo : ptrs[lo]? = some (ptrs.getD lo 0) := by
    rw [List.getElem?_eq_getElem (by omega), List.getD_eq_getElem _ _ (by omega)]
  rw [CineGetImages, hp] at hfull
  simp only [Option.getD] at hfull
  rw [if_neg (by omega : ¬ (0, N).2 < (0, N).1)] at hfull
  rw [hidx0] at hfull
  simp only [Nat.sub_zero] at hfull
  cases hdf : decodeFrames nx ny bc N (bs.drop (ptrs.getD 0 0)) with
  | none => rw [hdf] at hfull; cases hfull
  | some pr =>
    obtain ⟨fs, rN⟩ := pr
    rw [hdf] at hfull
    simp only at hfull
    cases hfull
    have hA : decodeFrames nx ny bc (lo + (N - lo)) (bs.drop (ptrs.getD 0 0)) =
        some (allFrames, rN) := by rwa [show lo + (N - lo) = N by omega]
    obtain ⟨r1, h1, h2⟩ := decodeFrames_split nx ny bc lo (N - lo) _ _ _ hA
    have hr1 : bs.drop (ptrs.getD lo 0) = r1 := by
      rw [h1] at hcons
      simp at hcons
      simpa [List.getD] using hcons.symm
    have hB : decodeFrames nx ny bc ((hi - lo) + (N - hi)) r1 =
        some (allFrames.drop lo, rN) := by
      rwa [show (hi - lo) + (N - hi) = N - lo by omega]
    obtain ⟨r2, h3, h4⟩ := decodeFrames_split nx ny bc (hi - lo) (N - hi) _ _ _ hB
    have hflen : allFrames.length = N := decodeFrames_length nx ny bc N _ _ _ hdf
    constructor
    · rw [CineGetImages, hp]
      simp only [Option.getD]
      rw [if_neg (by omega : ¬ (lo, hi).2 < (lo, hi).1)]
      rw [hidxlo]
      simp only
      rw [hr1, h3]
    · simp only [List.length_take, List.length_drop]
      omega

set_option maxRecDepth 40000 in
/-- C9 witness: a two-frame stream of 1x1 8-bit frames with pixel values 7
and 9; the range [1, 2) yields exactly the second frame, the slice of the
full decode. -/
theorem c9_witness : CineGetImages bsW 0 (some (1, 2)) 2 1 1 8 = .ok [[[9]]] :=
  ((c9_framerange_slicing bsW 0 2 1 1 8 1 2 [16, 25] (List.drop 16 bsW) [[[7]], [[9]]]
    (by decide) (by norm_num) (by norm_num) (by decide) (by decide)).1).trans (by decide)
